import Mathlib

/-!
Shallow embedding of `SteamClient::HandleMessage` (src/handlers.cpp) from the
SteamPP repository, together with theorems settling the frozen claims about it.

Modelling conventions:
* Raw buffers are `List Nat` (one `Nat` per byte).
* The C++ member fields of `SteamClient` that `HandleMessage` touches
  (`encrypted`, `steamID`, and the nullable callback slots) are a `ClientState`;
  a callback slot is modelled by a `Bool` saying whether it is set.
* Observable side effects (callback invocations, `WriteMessage` sends,
  `setInterval`, recursive `ReadMessage` submissions) become an `Event` trace.
* External libraries (protobuf parsing, libarchive, OpenSSL SHA-1) are
  dependency-injected through an `ExternalProviders` record: the embedding is
  parametric in what those providers return, exactly as the C++ is parametric
  in what the linked libraries compute.
* `assert(e)` is C's debug-only assertion: when `debug = true` a failed
  condition stops the handler with `Event.assertFailed` (process abort); when
  `debug = false` (NDEBUG) the check — including any side effect inside the
  `assert` argument — is compiled out and execution continues.
* A read past the end of a buffer is undefined behaviour in the C++; it is
  modelled by the distinguished trace `Event.oobRead` (other undefined
  behaviour, such as using an uninitialised value, is `Event.undef`).
-/

/-- One observable effect of the handler. The last three constructors are
modelled from the spec: they are the typed errors (`ProtocolViolation`,
`FramingError`, `DecompressionFailure`) that the specification's error-handling
design mandates; they are included so the spec's claims can be stated, and the
embedded code never emits them. -/
inductive Event where
  /-- the `WriteMessage(EMsg::ChannelEncryptResponse, ...)` send (body built by
  the external RSA / RNG / CRC providers, out of the claims' scope) -/
  | sentChannelEncryptResponse : Event
  /-- invocation of the `onHandshake` callback -/
  | handshakeCallback : Event
  /-- a sub-envelope body handed to `ReadMessage` (the recursive re-entry into
  the message dispatcher) -/
  | readMessage : List Nat → Event
  /-- invocation of `onLogOn` with the result code and the client's `steamID` -/
  | logOnCallback : Nat → Nat → Event
  /-- the `setInterval` registration of the recurring encrypted
  `ClientHeartBeat` send, carrying the interval in seconds -/
  | setIntervalHeartbeat : Nat → Event
  /-- the `WriteMessage(EMsg::ClientUpdateMachineAuthResponse, ...)` send:
  digest carried in `sha_file`, encrypted flag, job id -/
  | sentMachineAuthReply : List Nat → Bool → Nat → Event
  /-- invocation of `onSentry` with the digest -/
  | sentryCallback : List Nat → Event
  /-- invocation of `onUserInfo` with `friendid`, `steamid_source`,
  `player_name` -/
  | userInfoCallback : Nat → Nat → String → Event
  /-- invocation of `onChatMsg` with room id, chatter id, and the text bytes
  the callback observes through its `const char*` argument -/
  | chatMsgCallback : Nat → Nat → List Nat → Event
  /-- invocation of `onChatEnter` with room id, enter-response code, room name
  bytes, member count, and the member-array view bytes -/
  | chatEnterCallback : Nat → Nat → List Nat → Nat → List Nat → Event
  /-- invocation of `onChatStateChange` with room id, acted-by, acted-on,
  state-change flags, and the member view bytes -/
  | chatStateChangeCallback : Nat → Nat → Nat → Nat → List Nat → Event
  /-- a read past the end of the delivered buffer (undefined behaviour) -/
  | oobRead : Event
  /-- a failed `assert` with assertions enabled (process abort) -/
  | assertFailed : Event
  /-- other undefined behaviour (e.g. use of an uninitialised buffer) -/
  | undef : Event
  /-- Modelled from the spec: the typed `ProtocolViolation` error. -/
  | protocolViolation : Event
  /-- Modelled from the spec: the typed `FramingError` error. -/
  | framingError : Event
  /-- Modelled from the spec: the typed `DecompressionFailure` error. -/
  | decompressionFailure : Event
  deriving DecidableEq

/-- The `SteamClient` fields read or written by `HandleMessage`: the
`encrypted` flag, the client's own `steamID`, and whether each nullable
callback slot is set. -/
structure ClientState where
  encrypted : Bool
  steamID : Nat
  onHandshake : Bool
  onLogOn : Bool
  onSentry : Bool
  onUserInfo : Bool
  onChatMsg : Bool
  onChatEnter : Bool
  onChatStateChange : Bool
  deriving DecidableEq

/-- The message kinds `switch (emsg)` distinguishes; `OtherMsg` is every kind
with no case label (the switch falls through and does nothing). -/
inductive EMsg where
  | ChannelEncryptRequest : EMsg
  | ChannelEncryptResult : EMsg
  | Multi : EMsg
  | ClientLogOnResponse : EMsg
  | ClientUpdateMachineAuth : EMsg
  | ClientPersonaState : EMsg
  | ClientChatMsg : EMsg
  | ClientChatEnter : EMsg
  | ClientChatMemberInfo : EMsg
  | OtherMsg : EMsg
  deriving DecidableEq

/-- One friend record of `CMsgClientPersonaState` as the handler projects it:
`friendid()`, `steamid_source()`, `player_name()`. -/
structure Friend where
  friendid : Nat
  steamidSource : Nat
  playerName : String
  deriving DecidableEq

/-- One entry of the zip container as libarchive reports it: pathname,
declared (`archive_entry_size`) size, and the bytes `archive_read_data`
yields. -/
structure ArchiveEntry where
  name : String
  declaredSize : Nat
  data : List Nat
  deriving DecidableEq

/-- The external libraries the handler calls, dependency-injected.
`parseMulti` is protobuf `CMsgMulti::ParseFromArray` projected to
`(size_unzipped, message_body)`; `openArchive` is libarchive's zip opening,
`none` meaning the container cannot be opened; `parseLogonResponse` projects
`CMsgClientLogonResponse` to `(eresult, out_of_game_heartbeat_seconds)`;
`parseMachineAuth` projects `CMsgClientUpdateMachineAuth` to `bytes()`;
`sha1` is OpenSSL `SHA1` (its interface contract returns 20 bytes);
`parsePersonaState` projects `CMsgClientPersonaState` to its `friends`
records. -/
structure ExternalProviders where
  parseMulti : List Nat → Nat × List Nat
  openArchive : List Nat → Option (List ArchiveEntry)
  parseLogonResponse : List Nat → Nat × Nat
  parseMachineAuth : List Nat → List Nat
  sha1 : List Nat → List Nat
  parsePersonaState : List Nat → List Friend

/-- Modelled from the spec: the numeric value of `EResult::OK` from the
repository's `steam_language` headers (not under src/); the spec says only
the result code "OK" is accepted. -/
def EResult_OK : Nat := 1

/-- Modelled from the spec: `sizeof(MsgClientChatMsg)` from the repository's
`steam_language_internal.h` (not under src/) — fixed header
`{steamIdChatter: u64, steamIdChatRoom: u64, chatMsgType: u32}`, 20 bytes,
chatter at offset 0 and room at offset 8. -/
def sizeofMsgClientChatMsg : Nat := 20

/-- Modelled from the spec: `sizeof(MsgClientChatEnter)` from
`steam_language_internal.h` (not under src/) — packed fixed header ending in
the `u32 enterResponse` field at offset 37, 41 bytes in total. -/
def sizeofMsgClientChatEnter : Nat := 41

/-- Modelled from the spec: `sizeof(MsgClientChatMemberInfo)` from
`steam_language_internal.h` (not under src/) — `{steamIdChat: u64,
type: u32}`, 12 bytes. -/
def sizeofMsgClientChatMemberInfo : Nat := 12

/-- Modelled from the spec: the numeric value of
`EChatInfoType::StateChange`. -/
def EChatInfoType_StateChange : Nat := 1

/-- Read a little-endian `u32` at byte offset `o`; `none` when fewer than four
bytes are available there (the C++ `*reinterpret_cast<const uint32_t*>` would
read out of bounds). -/
def readU32LE (d : List Nat) (o : Nat) : Option Nat :=
  match d.drop o with
  | b0 :: b1 :: b2 :: b3 :: _ => some (b0 + 256 * b1 + 65536 * b2 + 16777216 * b3)
  | _ => none

/-- Total little-endian `u32` read, used only after the surrounding handler
has already established the offset is in bounds. -/
def getU32LE (d : List Nat) (o : Nat) : Nat :=
  match d.drop o with
  | b0 :: b1 :: b2 :: b3 :: _ => b0 + 256 * b1 + 65536 * b2 + 16777216 * b3
  | _ => 0

/-- Total little-endian `u64` read, used only after the surrounding handler
has already established the offset is in bounds. -/
def getU64LE (d : List Nat) (o : Nat) : Nat :=
  match d.drop o with
  | b0 :: b1 :: b2 :: b3 :: b4 :: b5 :: b6 :: b7 :: _ =>
    b0 + 256 * b1 + 65536 * b2 + 16777216 * b3 + 4294967296 * b4 +
      1099511627776 * b5 + 281474976710656 * b6 + 72057594037927936 * b7
  | _ => 0

/-- Little-endian encoding of a `u32` value as four bytes. -/
def le32enc (n : Nat) : List Nat :=
  [n % 256, n / 256 % 256, n / 65536 % 256, n / 16777216 % 256]

/-- Concatenation of `{u32 length}{length bytes}` sub-envelope records — the
batch payload layout the `EMsg::Multi` walk consumes. -/
def encodeRecords (rs : List (List Nat)) : List Nat :=
  rs.foldr (fun r acc => le32enc r.length ++ r ++ acc) []

/-- The `EMsg::Multi` sub-envelope loop
`for (offset = 0; offset < payload_size;) { subSize = u32 at offset;
ReadMessage(data + offset + 4, subSize); offset += 4 + subSize; }`,
embedded as recursion on the still-unwalked suffix `data.drop offset`.
The fuel argument bounds the iteration count: every iteration advances
`offset` by at least 4, so `data.length` iterations always suffice
(`multiWalkGo_congr` proves the fuel value is irrelevant once sufficient,
and `multiWalk` below always supplies enough). -/
def multiWalkGo : Nat → List Nat → List Event
  | _, [] => []
  | 0, _ :: _ => []
  | fuel + 1, b :: rest =>
    match readU32LE (b :: rest) 0 with
    | none => [Event.oobRead]
    | some n =>
      if (b :: rest).length < 4 + n then [Event.oobRead]
      else
        Event.readMessage (((b :: rest).drop 4).take n) ::
          multiWalkGo fuel ((b :: rest).drop (4 + n))

/-- The `EMsg::Multi` sub-envelope walk over a buffer whose length equals the
loop bound `payload_size` (in the C++ both the uncompressed payload and the
decompressed buffer have exactly that length). -/
def multiWalk (data : List Nat) : List Event :=
  multiWalkGo data.length data

/-- The decompression block of the `EMsg::Multi` case (lines 87–115): open the
payload as a zip, `assert` the open succeeded, `assert` the first header read
succeeded, `assert` the entry is named "z", `assert` its declared size equals
`size_unzipped`, read up to `size_unzipped` bytes, `assert` exactly that many
were read, `assert` the next header read hits EOF.  Every check is a
debug-only `assert`: with `debug = false` all of them are compiled out.
Returns the trace so far and the decompressed buffer when the handler keeps
going. -/
def handleMultiZip (debug : Bool) (su : Nat) (arc : Option (List ArchiveEntry)) :
    List Event × Option (List Nat) :=
  match arc with
  | none => ((if debug then [Event.assertFailed] else [Event.undef]), none)
  | some [] => ((if debug then [Event.assertFailed] else [Event.undef]), none)
  | some (e :: rest) =>
    if debug ∧ e.name ≠ "z" then ([Event.assertFailed], none)
    else if debug ∧ e.declaredSize ≠ su then ([Event.assertFailed], none)
    else if debug ∧ min e.data.length su ≠ su then ([Event.assertFailed], none)
    else if debug ∧ rest ≠ [] then ([Event.assertFailed], none)
    else if min e.data.length su < su then ([Event.undef], none)
    else ([], some (e.data.take su))

/-- The `EMsg::Multi` case (lines 79–127): parse `CMsgMulti`, decompress when
`size_unzipped > 0`, then walk the resulting buffer as sub-envelope
records. -/
def handleMulti (P : ExternalProviders) (debug : Bool) (data : List Nat) :
    List Event :=
  let su := (P.parseMulti data).1
  let payload := (P.parseMulti data).2
  if 0 < su then
    match handleMultiZip debug su (P.openArchive payload) with
    | (evs, none) => evs
    | (evs, some buf) => evs ++ multiWalk buf
  else multiWalk payload

/-- The `EMsg::ChannelEncryptResult` case (lines 65–77):
`assert(enc_result->result == EResult::OK); encrypted = true;
if (onHandshake) onHandshake();`.  With assertions enabled the result field is
read and a non-OK value aborts; with NDEBUG the `assert` argument — the only
read of the payload — is compiled out and the flag is set and the callback
invoked unconditionally. -/
def handleEncryptResult (debug : Bool) (s : ClientState) (data : List Nat) :
    ClientState × List Event :=
  if debug then
    match readU32LE data 0 with
    | none => (s, [Event.oobRead])
    | some r =>
      if r ≠ EResult_OK then (s, [Event.assertFailed])
      else ({ s with encrypted := true },
        if s.onHandshake then [Event.handshakeCallback] else [])
  else ({ s with encrypted := true },
    if s.onHandshake then [Event.handshakeCallback] else [])

/-- The `EMsg::ClientLogOnResponse` case (lines 131–153): parse, invoke
`onLogOn` when set with `(eresult, steamID)`, and when `eresult == OK`
register the recurring encrypted heartbeat via `setInterval`. -/
def handleLogOnResponse (P : ExternalProviders) (s : ClientState)
    (data : List Nat) : List Event :=
  let er := (P.parseLogonResponse data).1
  let iv := (P.parseLogonResponse data).2
  (if s.onLogOn then [Event.logOnCallback er s.steamID] else []) ++
    (if er = EResult_OK then [Event.setIntervalHeartbeat iv] else [])

/-- The `EMsg::ClientUpdateMachineAuth` case (lines 155–175): early return
when `onSentry` is unset; otherwise compute `SHA1(bytes)`, send a
`ClientUpdateMachineAuthResponse` carrying 20 digest bytes in `sha_file`,
encrypted, with the request's `job_id`, then invoke `onSentry` with the
digest. -/
def handleUpdateMachineAuth (P : ExternalProviders) (s : ClientState)
    (data : List Nat) (jobId : Nat) : List Event :=
  if s.onSentry = false then []
  else
    let sha := P.sha1 (P.parseMachineAuth data)
    [Event.sentMachineAuthReply (sha.take 20) true jobId,
      Event.sentryCallback sha]

/-- The `EMsg::ClientPersonaState` case (lines 179–193): early return when
`onUserInfo` is unset; `assert(state.friends_size() == 1)` (debug-only), then
`friends(0)` — with NDEBUG a multi-record message silently uses the first
record, and a zero-record message indexes out of range (undefined
behaviour). -/
def handlePersonaState (P : ExternalProviders) (debug : Bool) (s : ClientState)
    (data : List Nat) : ClientState × List Event :=
  if s.onUserInfo = false then (s, [])
  else
    let fs := P.parsePersonaState data
    if debug ∧ fs.length ≠ 1 then (s, [Event.assertFailed])
    else
      match fs with
      | [] => (s, [Event.undef])
      | f :: _ =>
        (s, [Event.userInfoCallback f.friendid f.steamidSource f.playerName])

/-- The `EMsg::ClientChatMsg` case (lines 197–217): early return when
`onChatMsg` is unset; `begin = data + sizeof(MsgClientChatMsg)`,
`end = data + length` — a payload shorter than the header makes `end` precede
`begin` and `std::find` reads out of bounds.  Otherwise the callback receives
the whole trailing range when it holds no null byte, and a pointer into the
buffer (C-string semantics: bytes up to the first null) when it does. -/
def handleChatMsg (s : ClientState) (data : List Nat) : List Event :=
  if s.onChatMsg = false then []
  else if data.length < sizeofMsgClientChatMsg then [Event.oobRead]
  else
    let trailing := data.drop sizeofMsgClientChatMsg
    let text := if trailing.contains 0 then
        trailing.takeWhile (fun b => !(b == 0))
      else trailing
    [Event.chatMsgCallback (getU64LE data 8) (getU64LE data 0) text]

/-- The `EMsg::ClientChatEnter` case (lines 221–241): early return when
`onChatEnter` is unset; reads `member_count` right after the fixed header,
then `while (*members++);` scans for the name's null terminator — running past
the buffer when no null byte exists. -/
def handleChatEnter (s : ClientState) (data : List Nat) : List Event :=
  if s.onChatEnter = false then []
  else if data.length < sizeofMsgClientChatEnter + 4 then [Event.oobRead]
  else
    let nameRegion := data.drop (sizeofMsgClientChatEnter + 4)
    if nameRegion.contains 0 = false then [Event.oobRead]
    else
      [Event.chatEnterCallback (getU64LE data 0) (getU32LE data 37)
        (nameRegion.takeWhile (fun b => !(b == 0)))
        (getU32LE data sizeofMsgClientChatEnter)
        (nameRegion.drop (nameRegion.findIdx (fun b => b == 0) + 1))]

/-- The `EMsg::ClientChatMemberInfo` case (lines 245–263): early return when
`onChatStateChange` is unset or the info type is not `StateChange`; otherwise
project `{actedOn: u64, stateChange: u32, actedBy: u64, member view}` out of
the payload after the fixed header. -/
def handleChatMemberInfo (s : ClientState) (data : List Nat) : List Event :=
  if s.onChatStateChange = false then []
  else if data.length < sizeofMsgClientChatMemberInfo then [Event.oobRead]
  else if getU32LE data 8 ≠ EChatInfoType_StateChange then []
  else if data.length < sizeofMsgClientChatMemberInfo + 20 then [Event.oobRead]
  else
    [Event.chatStateChangeCallback (getU64LE data 0)
      (getU64LE data (sizeofMsgClientChatMemberInfo + 12))
      (getU64LE data sizeofMsgClientChatMemberInfo)
      (getU32LE data (sizeofMsgClientChatMemberInfo + 8))
      (data.drop (sizeofMsgClientChatMemberInfo + 20))]

/-- `SteamClient::HandleMessage` (src/handlers.cpp line 27): the top-level
switch over `emsg`. -/
def HandleMessage (P : ExternalProviders) (debug : Bool) (s : ClientState)
    (emsg : EMsg) (data : List Nat) (jobId : Nat) : ClientState × List Event :=
  match emsg with
  | EMsg.ChannelEncryptRequest => (s, [Event.sentChannelEncryptResponse])
  | EMsg.ChannelEncryptResult => handleEncryptResult debug s data
  | EMsg.Multi => (s, handleMulti P debug data)
  | EMsg.ClientLogOnResponse => (s, handleLogOnResponse P s data)
  | EMsg.ClientUpdateMachineAuth => (s, handleUpdateMachineAuth P s data jobId)
  | EMsg.ClientPersonaState => handlePersonaState P debug s data
  | EMsg.ClientChatMsg => (s, handleChatMsg s data)
  | EMsg.ClientChatEnter => (s, handleChatEnter s data)
  | EMsg.ClientChatMemberInfo => (s, handleChatMemberInfo s data)
  | EMsg.OtherMsg => (s, [])

/-- Test fixture: a client with every callback slot set (and a concrete
`steamID`), used by the concrete witnesses and counterexamples. -/
def sAll : ClientState :=
  ⟨false, 76561197960265729, true, true, true, true, true, true, true⟩

/-- Test fixture: a client with no callback slot set. -/
def sNone : ClientState :=
  ⟨false, 76561197960265729, false, false, false, false, false, false, false⟩

/-- Test fixture: external providers whose protobuf projections are simple
concrete functions (the batch parser hands the raw payload through with
`size_unzipped = 0`, the hash provider returns a fixed 20-byte digest). -/
def P5 : ExternalProviders :=
  { parseMulti := fun d => (0, d),
    openArchive := fun _ => none,
    parseLogonResponse := fun _ => (1, 9),
    parseMachineAuth := fun d => d,
    sha1 := fun _ => List.replicate 20 7,
    parsePersonaState := fun _ => [] }

/-- Test fixture: providers reporting a compressed batch whose container holds
a single entry with the wrong name "q" but consistent sizes. -/
def P4 : ExternalProviders :=
  { P5 with
    parseMulti := fun _ => (4, [])
    openArchive := fun _ => some [⟨"q", 4, [0, 0, 0, 0]⟩] }

/-- Test fixture: providers whose persona-state projection yields two friend
records. -/
def P8 : ExternalProviders :=
  { P5 with parsePersonaState := fun _ => [⟨1, 2, "a"⟩, ⟨3, 4, "b"⟩] }

/-- Test fixture: providers whose persona-state projection yields exactly one
friend record. -/
def P8one : ExternalProviders :=
  { P5 with parsePersonaState := fun _ => [⟨5, 6, "n"⟩] }

theorem multiWalkGo_nil (f : Nat) : multiWalkGo f [] = [] := by
  cases f <;> rfl

theorem multiWalkGo_congr (f1 : Nat) : ∀ f2 : Nat, ∀ data : List Nat,
    data.length ≤ f1 → data.length ≤ f2 →
    multiWalkGo f1 data = multiWalkGo f2 data := by
  induction f1 with
  | zero =>
    intro f2 data h1 h2
    have hd : data = [] := List.length_eq_zero.mp (Nat.le_zero.mp h1)
    subst hd
    simp [multiWalkGo_nil]
  | succ f ih =>
    intro f2 data h1 h2
    rcases data with _ | ⟨b, rest⟩
    · simp [multiWalkGo_nil]
    · rcases f2 with _ | g
      · exact absurd h2 (by simp)
      · simp only [multiWalkGo]
        cases hread : readU32LE (b :: rest) 0 with
        | none => rfl
        | some n =>
          by_cases hov : rest.length + 1 < 4 + n
          · simp [hov]
          · simp only [List.length_cons, if_neg hov]
            have hlen : ((b :: rest).drop (4 + n)).length ≤ f := by
              simp only [List.length_drop, List.length_cons] at h1 ⊢
              omega
            have hlen2 : ((b :: rest).drop (4 + n)).length ≤ g := by
              simp only [List.length_drop, List.length_cons] at h2 ⊢
              omega
            rw [ih g ((b :: rest).drop (4 + n)) hlen hlen2]

theorem readU32LE_none (data : List Nat) (h : data.length < 4) :
    readU32LE data 0 = none := by
  match data, h with
  | [], _ => rfl
  | [a], _ => rfl
  | [a, b], _ => rfl
  | [a, b, c], _ => rfl
  | a :: b :: c :: d :: t, h =>
    exact absurd h (by simp only [List.length_cons]; omega)

/-- Helper: taking a prepended list's own length returns it unchanged. -/
theorem take_append_eq (r rest : List Nat) : (r ++ rest).take r.length = r := by
  induction r with
  | nil => rfl
  | cons a t ih => simp [ih]

/-- Helper: dropping a prepended list's own length leaves the tail. -/
theorem drop_append_eq (r rest : List Nat) : (r ++ rest).drop r.length = rest := by
  induction r with
  | nil => rfl
  | cons a t ih => simp [ih]

/-- One well-formed record at the head of the walk dispatches its body and
continues on the remainder. -/
theorem multiWalk_record (n : Nat) (r rest : List Nat) (hn : n < 2 ^ 32)
    (hr : r.length = n) :
    multiWalk (le32enc n ++ (r ++ rest)) =
      Event.readMessage r :: multiWalk rest := by
  have hdata : le32enc n ++ (r ++ rest) =
      n % 256 :: (n / 256 % 256) :: (n / 65536 % 256) :: (n / 16777216 % 256) ::
        (r ++ rest) := by
    simp [le32enc]
  rw [multiWalk, hdata]
  have hlen : (n % 256 :: (n / 256 % 256) :: (n / 65536 % 256) ::
      (n / 16777216 % 256) :: (r ++ rest)).length = (n + rest.length + 3) + 1 := by
    simp only [List.length_cons, List.length_append, hr]
    try omega
  rw [hlen]
  simp only [multiWalkGo]
  have hread : readU32LE (n % 256 :: (n / 256 % 256) :: (n / 65536 % 256) ::
      (n / 16777216 % 256) :: (r ++ rest)) 0 = some n := by
    simp only [readU32LE, List.drop_zero]
    have : n % 256 + 256 * (n / 256 % 256) + 65536 * (n / 65536 % 256) +
        16777216 * (n / 16777216 % 256) = n := by omega
    rw [this]
  simp only [hread]
  have hov : ¬ (n % 256 :: (n / 256 % 256) :: (n / 65536 % 256) ::
      (n / 16777216 % 256) :: (r ++ rest)).length < 4 + n := by
    simp only [List.length_cons, List.length_append, hr]
    try omega
  rw [if_neg hov]
  have hdrop4 : (n % 256 :: (n / 256 % 256) :: (n / 65536 % 256) ::
      (n / 16777216 % 256) :: (r ++ rest)).drop 4 = r ++ rest := rfl
  have htake : ((n % 256 :: (n / 256 % 256) :: (n / 65536 % 256) ::
      (n / 16777216 % 256) :: (r ++ rest)).drop 4).take n = r := by
    rw [hdrop4, ← hr, take_append_eq]
  rw [htake]
  have h4n : (4 : Nat) + n = n + 1 + 1 + 1 + 1 := by omega
  have hdropn : (n % 256 :: (n / 256 % 256) :: (n / 65536 % 256) ::
      (n / 16777216 % 256) :: (r ++ rest)).drop (4 + n) = rest := by
    rw [h4n]
    simp only [List.drop_succ_cons]
    rw [← hr, drop_append_eq]
  rw [hdropn]
  rw [multiWalkGo_congr (n + rest.length + 3) rest.length rest (by omega)
    (Nat.le_refl _)]
  rfl

/-- The walk over a well-formed record prefix dispatches each record body in
order and then continues on the tail. -/
theorem multiWalk_append (rs : List (List Nat)) (tail : List Nat)
    (h : ∀ r ∈ rs, r.length < 2 ^ 32) :
    multiWalk (encodeRecords rs ++ tail) =
      rs.map Event.readMessage ++ multiWalk tail := by
  induction rs with
  | nil => simp [encodeRecords]
  | cons r rest ih =>
    have hr := h r (by simp)
    have hrest : ∀ x ∈ rest, x.length < 2 ^ 32 := fun x hx => h x (by simp [hx])
    have hsplit : encodeRecords (r :: rest) ++ tail =
        le32enc r.length ++ (r ++ (encodeRecords rest ++ tail)) := by
      simp [encodeRecords, List.append_assoc]
    rw [hsplit, multiWalk_record r.length r (encodeRecords rest ++ tail) hr rfl,
      ih hrest]
    simp

/-- A nonempty walk suffix that is a partial record, or whose declared length
overruns the remaining buffer, reads out of bounds. -/
theorem multiWalk_oob (data : List Nat) (h1 : data ≠ [])
    (h2 : data.length < 4 ∨
      ∃ n, readU32LE data 0 = some n ∧ data.length < 4 + n) :
    multiWalk data = [Event.oobRead] := by
  rcases data with _ | ⟨b, rest⟩
  · exact absurd rfl h1
  · rw [multiWalk]
    have hl : (b :: rest).length = rest.length + 1 := rfl
    rw [hl]
    simp only [multiWalkGo]
    rcases h2 with h2 | ⟨n, hread, hov⟩
    · simp only [readU32LE_none _ h2]
    · simp only [hread, if_pos hov]

/-- Helper: keeping bytes while they are nonzero is the same as taking up to
the index of the first zero byte. -/
theorem takeWhile_eq_take_findIdx (l : List Nat) :
    l.takeWhile (fun b => !(b == 0)) = l.take (l.findIdx (fun b => b == 0)) := by
  induction l with
  | nil => rfl
  | cons a t ih =>
    by_cases h : a = 0
    · subst h
      simp [List.takeWhile_cons, List.findIdx_cons]
    · have ha : (a == 0) = false := by simpa using h
      simp [List.takeWhile_cons, List.findIdx_cons, ha, ih]

/-- Helper: when a list holds no zero byte, taking up to the index of the
first zero byte returns the whole list. -/
theorem take_findIdx_of_not_contains (l : List Nat) (h : l.contains 0 = false) :
    l.take (l.findIdx (fun b => b == 0)) = l := by
  induction l with
  | nil => rfl
  | cons a t ih =>
    simp only [List.contains_cons, Bool.or_eq_false_iff] at h
    have ha : (a == 0) = false := by
      cases hb : a == 0
      · rfl
      · have hz : a = 0 := by simpa using hb
        subst hz
        simpa using h.1
    simp [List.findIdx_cons, ha, ih h.2]

/-- Claim C1 (as amended): on an encryption-result message the OK check is a
debug-only assertion, not an unconditional runtime check.  When the carried
result code equals OK, `HandleMessage` sets the encrypted flag and invokes the
handshake-complete callback (when one is set) exactly once.  When the result
code is not OK: with assertions enabled the handler aborts via the failed
assert, leaving the state unchanged and invoking no callback; with assertions
compiled out it behaves exactly as the OK path, setting the encrypted flag and
invoking the callback. -/
theorem C1_encrypt_result_assert_only (P : ExternalProviders) (debug : Bool)
    (s : ClientState) (data : List Nat) (jobId : Nat) (r : Nat)
    (hread : readU32LE data 0 = some r) :
    (r = EResult_OK →
      HandleMessage P debug s EMsg.ChannelEncryptResult data jobId =
        ({ s with encrypted := true },
          if s.onHandshake then [Event.handshakeCallback] else [])) ∧
    (r ≠ EResult_OK →
      HandleMessage P debug s EMsg.ChannelEncryptResult data jobId =
        if debug then (s, [Event.assertFailed])
        else ({ s with encrypted := true },
          if s.onHandshake then [Event.handshakeCallback] else [])) := by
  constructor
  · intro hok
    cases debug
    · simp [HandleMessage, handleEncryptResult]
    · simp [HandleMessage, handleEncryptResult, hread, hok]
  · intro hko
    cases debug
    · simp [HandleMessage, handleEncryptResult]
    · simp [HandleMessage, handleEncryptResult, hread, hko]

/-- Claim C1, counterexample to the claim as frozen: with assertions compiled
out (the unconditional runtime behaviour), an encryption result carrying the
non-OK code 2 still sets the encrypted flag to true and still invokes the
handshake-complete callback. -/
theorem C1_counterexample :
    readU32LE [2, 0, 0, 0] 0 = some 2 ∧ (2 : Nat) ≠ EResult_OK ∧
    (HandleMessage P5 false sAll EMsg.ChannelEncryptResult [2, 0, 0, 0] 0).1.encrypted
      = true ∧
    Event.handshakeCallback ∈
      (HandleMessage P5 false sAll EMsg.ChannelEncryptResult [2, 0, 0, 0] 0).2 := by
  decide

/-- Claim C1, witness: the amended theorem applied at a concrete OK-carrying
message with assertions enabled. -/
theorem C1_witness :
    HandleMessage P5 true sAll EMsg.ChannelEncryptResult [1, 0, 0, 0] 0 =
      ({ sAll with encrypted := true }, [Event.handshakeCallback]) := by
  have h := (C1_encrypt_result_assert_only P5 true sAll [1, 0, 0, 0] 0 1
    (by decide)).1 (by decide)
  simpa using h

/-- Claim C2 (as amended): the decoders perform no length validation at all.
A chat-message payload shorter than the fixed `MsgClientChatMsg` layout leads
to an out-of-bounds read (undefined behaviour) with no callback invoked and no
typed ProtocolViolation raised; the other fixed-layout decoders read their
fields equally unchecked. -/
theorem C2_no_length_validation (P : ExternalProviders) (debug : Bool)
    (s : ClientState) (data : List Nat) (jobId : Nat)
    (hcb : s.onChatMsg = true)
    (hshort : data.length < sizeofMsgClientChatMsg) :
    HandleMessage P debug s EMsg.ClientChatMsg data jobId =
      (s, [Event.oobRead]) := by
  simp [HandleMessage, handleChatMsg, hcb, hshort]

/-- Claim C2, counterexample to the claim as frozen: an empty chat-message
payload (shorter than the fixed layout) produces an out-of-bounds read, not a
ProtocolViolation. -/
theorem C2_counterexample :
    sAll.onChatMsg = true ∧
    ([] : List Nat).length < sizeofMsgClientChatMsg ∧
    (HandleMessage P5 true sAll EMsg.ClientChatMsg [] 0).2 = [Event.oobRead] ∧
    Event.protocolViolation ∉
      (HandleMessage P5 true sAll EMsg.ClientChatMsg [] 0).2 := by
  decide

/-- Claim C2, witness: the amended theorem applied at a concrete short
payload. -/
theorem C2_witness :
    HandleMessage P5 false sAll EMsg.ClientChatMsg [1, 2, 3] 7 =
      (sAll, [Event.oobRead]) := by
  exact C2_no_length_validation P5 false sAll [1, 2, 3] 7 (by decide) (by decide)

/-- Claim C3 (as amended): the batch walk performs no framing validation.
After dispatching any well-formed record prefix, a nonempty remainder that is
a partial record (fewer than four bytes) or whose declared length overruns the
remaining buffer makes the walk read out of bounds (undefined behaviour)
instead of raising a FramingError. -/
theorem C3_batch_overrun_oob (P : ExternalProviders) (debug : Bool)
    (s : ClientState) (data : List Nat) (jobId : Nat) (rs : List (List Nat))
    (tail : List Nat)
    (hparse : P.parseMulti data = (0, encodeRecords rs ++ tail))
    (hlen : ∀ r ∈ rs, r.length < 2 ^ 32)
    (htail : tail ≠ [])
    (hbad : tail.length < 4 ∨
      ∃ n, readU32LE tail 0 = some n ∧ tail.length < 4 + n) :
    HandleMessage P debug s EMsg.Multi data jobId =
      (s, rs.map Event.readMessage ++ [Event.oobRead]) := by
  simp only [HandleMessage, handleMulti, hparse]
  rw [multiWalk_append rs tail hlen, multiWalk_oob tail htail hbad]
  simp

/-- Claim C3, counterexample to the claim as frozen: a batch payload declaring
a 5-byte sub-envelope with no bytes after the length word — the sum of
`(4 + length)` does not equal the payload length — produces an out-of-bounds
read, not a FramingError. -/
theorem C3_counterexample :
    (HandleMessage P5 false sAll EMsg.Multi [5, 0, 0, 0] 0).2 = [Event.oobRead] ∧
    Event.framingError ∉ (HandleMessage P5 false sAll EMsg.Multi [5, 0, 0, 0] 0).2 ∧
    4 + 5 ≠ ([5, 0, 0, 0] : List Nat).length := by
  decide

/-- Claim C3, witness: the amended theorem applied at a concrete batch whose
single well-formed record is followed by a two-byte partial record. -/
theorem C3_witness :
    HandleMessage P5 true sAll EMsg.Multi
        (encodeRecords [[9]] ++ [1, 2]) 0 =
      (sAll, [Event.readMessage [9], Event.oobRead]) := by
  have h := C3_batch_overrun_oob P5 true sAll (encodeRecords [[9]] ++ [1, 2]) 0
    [[9]] [1, 2] rfl (by decide) (by decide) (Or.inl (by decide))
  simpa using h

/-- Claim C4 (as amended): the compressed-batch container checks are
debug-only assertions, not typed errors.  For a single-entry container whose
sizes are consistent but whose entry name is not "z": with assertions enabled
the handler aborts via the failed assert; with assertions compiled out the
wrong name is silently accepted and the entry's bytes are walked and
dispatched as sub-messages.  No DecompressionFailure is raised in either
mode. -/
theorem C4_zip_assert_only (P : ExternalProviders) (debug : Bool)
    (s : ClientState) (data : List Nat) (jobId : Nat) (su : Nat)
    (pl : List Nat) (e : ArchiveEntry)
    (hparse : P.parseMulti data = (su, pl)) (hsu : 0 < su)
    (harc : P.openArchive pl = some [e])
    (hname : e.name ≠ "z") (_hdecl : e.declaredSize = su)
    (hdata : e.data.length = su) :
    HandleMessage P debug s EMsg.Multi data jobId =
      (s, if debug then [Event.assertFailed] else multiWalk e.data) := by
  have htake : e.data.take su = e.data := by
    rw [← hdata, List.take_length]
  cases debug
  · simp [HandleMessage, handleMulti, handleMultiZip, hparse, hsu, harc,
      hdata, htake]
  · simp [HandleMessage, handleMulti, handleMultiZip, hparse, hsu, harc, hname]

/-- Claim C4, counterexample to the claim as frozen: a compressed batch whose
container holds one entry named "q" (not "z") with consistent sizes.  With
assertions enabled the process aborts (no DecompressionFailure); with
assertions compiled out the deviation is silently tolerated and the entry's
bytes are dispatched as an (empty-bodied) sub-message — a silent partial
result. -/
theorem C4_counterexample :
    (HandleMessage P4 true sAll EMsg.Multi [] 0).2 = [Event.assertFailed] ∧
    (HandleMessage P4 false sAll EMsg.Multi [] 0).2 = [Event.readMessage []] ∧
    Event.decompressionFailure ∉ (HandleMessage P4 true sAll EMsg.Multi [] 0).2 ∧
    Event.decompressionFailure ∉ (HandleMessage P4 false sAll EMsg.Multi [] 0).2 := by
  decide

/-- Claim C4, witness: the amended theorem applied at the concrete wrong-name
container with assertions compiled out. -/
theorem C4_witness :
    HandleMessage P4 false sAll EMsg.Multi [] 0 =
      (sAll, [Event.readMessage []]) := by
  have h := C4_zip_assert_only P4 false sAll [] 0 4 [] ⟨"q", 4, [0, 0, 0, 0]⟩
    rfl (by decide) rfl (by decide) rfl rfl
  simpa [multiWalk, multiWalkGo, readU32LE] using h

/-- Claim C5: an uncompressed batch (`size_unzipped = 0`) whose payload is a
well-formed concatenation of `{u32 length}{length bytes}` records dispatches
exactly one sub-message per record, in record order, with byte-exact bodies,
handing each to `ReadMessage` (the recursive dispatcher entry) until the
buffer is fully consumed; the client state is untouched. -/
theorem C5_uncompressed_batch_dispatch (P : ExternalProviders) (debug : Bool)
    (s : ClientState) (data : List Nat) (jobId : Nat) (rs : List (List Nat))
    (hparse : P.parseMulti data = (0, encodeRecords rs))
    (hlen : ∀ r ∈ rs, r.length < 2 ^ 32) :
    HandleMessage P debug s EMsg.Multi data jobId =
      (s, rs.map Event.readMessage) := by
  simp only [HandleMessage, handleMulti, hparse]
  have h := multiWalk_append rs [] hlen
  rw [List.append_nil] at h
  rw [h]
  simp [multiWalk, multiWalkGo_nil]

/-- Claim C5, witness: the theorem applied at the spec's own test vector — two
records of lengths 3 and 5 with distinct known bodies dispatch two
sub-messages, in order, with byte-exact bodies. -/
theorem C5_witness :
    HandleMessage P5 false sAll EMsg.Multi
        (encodeRecords [[1, 2, 3], [4, 5, 6, 7, 8]]) 0 =
      (sAll, [Event.readMessage [1, 2, 3], Event.readMessage [4, 5, 6, 7, 8]]) := by
  have h := C5_uncompressed_batch_dispatch P5 false sAll
    (encodeRecords [[1, 2, 3], [4, 5, 6, 7, 8]]) 0 [[1, 2, 3], [4, 5, 6, 7, 8]]
    rfl (by decide)
  simpa using h

/-- Claim C6: for a machine-auth update with blob bytes and job id `jobId`,
received while a sentry callback is registered, the handler computes the
SHA-1 digest of the blob via the hashing provider (whose contract yields 20
bytes), sends a reply carrying exactly that digest, marked encrypted, with
reply job id equal to the request's job id, and then invokes the sentry
callback with the same digest; the client state is untouched. -/
theorem C6_machine_auth_reply (P : ExternalProviders) (debug : Bool)
    (s : ClientState) (data : List Nat) (jobId : Nat)
    (hcb : s.onSentry = true)
    (hlen : (P.sha1 (P.parseMachineAuth data)).length = 20) :
    HandleMessage P debug s EMsg.ClientUpdateMachineAuth data jobId =
      (s, [Event.sentMachineAuthReply (P.sha1 (P.parseMachineAuth data)) true jobId,
        Event.sentryCallback (P.sha1 (P.parseMachineAuth data))]) := by
  have htake : (P.sha1 (P.parseMachineAuth data)).take 20 =
      P.sha1 (P.parseMachineAuth data) := by
    rw [← hlen, List.take_length]
  simp [HandleMessage, handleUpdateMachineAuth, hcb, htake]

/-- Claim C6, witness: the theorem applied at a concrete blob and job id 5,
with the fixture hash provider returning its fixed 20-byte digest. -/
theorem C6_witness :
    HandleMessage P5 false sAll EMsg.ClientUpdateMachineAuth [97, 98, 99] 5 =
      (sAll, [Event.sentMachineAuthReply (List.replicate 20 7) true 5,
        Event.sentryCallback (List.replicate 20 7)]) := by
  have h := C6_machine_auth_reply P5 false sAll [97, 98, 99] 5 rfl (by decide)
  simpa using h

/-- Claim C7: for a chat message at least as long as the fixed header, with a
chat-message callback registered, the callback receives exactly the bytes of
the trailing region up to (excluding) the first null byte when one exists,
and the entire trailing region otherwise — both cases captured as taking up
to the index of the first null byte. -/
theorem C7_chat_text (P : ExternalProviders) (debug : Bool) (s : ClientState)
    (data : List Nat) (jobId : Nat)
    (hcb : s.onChatMsg = true)
    (hlen : sizeofMsgClientChatMsg ≤ data.length) :
    HandleMessage P debug s EMsg.ClientChatMsg data jobId =
      (s, [Event.chatMsgCallback (getU64LE data 8) (getU64LE data 0)
        ((data.drop sizeofMsgClientChatMsg).take
          ((data.drop sizeofMsgClientChatMsg).findIdx (fun b => b == 0)))]) := by
  have hshort : ¬ data.length < sizeofMsgClientChatMsg := by omega
  have htext : (if (data.drop sizeofMsgClientChatMsg).contains 0 then
        (data.drop sizeofMsgClientChatMsg).takeWhile (fun b => !(b == 0))
      else data.drop sizeofMsgClientChatMsg) =
      (data.drop sizeofMsgClientChatMsg).take
        ((data.drop sizeofMsgClientChatMsg).findIdx (fun b => b == 0)) := by
    by_cases hz : (data.drop sizeofMsgClientChatMsg).contains 0
    · rw [if_pos hz, takeWhile_eq_take_findIdx]
    · have hzf : (data.drop sizeofMsgClientChatMsg).contains 0 = false := by
        simpa using hz
      rw [if_neg hz, take_findIdx_of_not_contains _ hzf]
  simp only [HandleMessage, handleChatMsg, hcb, Bool.true_eq_false, if_false,
    if_neg hshort]
  rw [htext]

/-- Claim C7, witness: the theorem applied at the spec's test vectors — a
trailing region `"hello\0trailing"`-style (null byte inside) yields the bytes
of "hello", and a trailing region "hello" with no null byte yields the whole
region. -/
theorem C7_witness :
    (HandleMessage P5 false sAll EMsg.ClientChatMsg
        (List.replicate 20 0 ++ [104, 101, 108, 108, 111, 0, 116, 114]) 0 =
      (sAll, [Event.chatMsgCallback 0 0 [104, 101, 108, 108, 111]])) ∧
    (HandleMessage P5 false sAll EMsg.ClientChatMsg
        (List.replicate 20 0 ++ [104, 101, 108, 108, 111]) 0 =
      (sAll, [Event.chatMsgCallback 0 0 [104, 101, 108, 108, 111]])) := by
  constructor
  · have h := C7_chat_text P5 false sAll
      (List.replicate 20 0 ++ [104, 101, 108, 108, 111, 0, 116, 114]) 0 rfl
      (by decide)
    simpa using h
  · have h := C7_chat_text P5 false sAll
      (List.replicate 20 0 ++ [104, 101, 108, 108, 111]) 0 rfl (by decide)
    simpa using h

/-- Claim C8 (as amended): the single-record invariant of persona-state
messages is a debug-only assertion, checked only when a user-info listener is
registered.  With exactly one record the callback receives that record's
identifier, identity-source and display name.  With a record count other than
one: assertions enabled aborts via the failed assert (no ProtocolViolation);
assertions compiled out silently invokes the callback with the first record
when one exists, and indexes out of range (undefined behaviour) on zero
records. -/
theorem C8_persona_state_assert_only (P : ExternalProviders) (debug : Bool)
    (s : ClientState) (data : List Nat)
    (hcb : s.onUserInfo = true) :
    (∀ f : Friend, P.parsePersonaState data = [f] →
      HandleMessage P debug s EMsg.ClientPersonaState data 0 =
        (s, [Event.userInfoCallback f.friendid f.steamidSource f.playerName])) ∧
    ((P.parsePersonaState data).length ≠ 1 → debug = true →
      HandleMessage P debug s EMsg.ClientPersonaState data 0 =
        (s, [Event.assertFailed])) ∧
    (∀ f g t, P.parsePersonaState data = f :: g :: t → debug = false →
      HandleMessage P debug s EMsg.ClientPersonaState data 0 =
        (s, [Event.userInfoCallback f.friendid f.steamidSource f.playerName])) ∧
    (P.parsePersonaState data = [] → debug = false →
      HandleMessage P debug s EMsg.ClientPersonaState data 0 =
        (s, [Event.undef])) := by
  refine ⟨?_, ?_, ?_, ?_⟩
  · intro f hf
    simp [HandleMessage, handlePersonaState, hcb, hf]
  · intro hn hd
    subst hd
    simp [HandleMessage, handlePersonaState, hcb, hn]
  · intro f g t hf hd
    subst hd
    simp [HandleMessage, handlePersonaState, hcb, hf]
  · intro hf hd
    subst hd
    simp [HandleMessage, handlePersonaState, hcb, hf]

/-- Claim C8, counterexample to the claim as frozen: a persona-state message
carrying two friend records is not rejected — with assertions compiled out the
user-info callback is invoked with the first record, and no ProtocolViolation
is raised. -/
theorem C8_counterexample :
    (P8.parsePersonaState []).length = 2 ∧
    (HandleMessage P8 false sAll EMsg.ClientPersonaState [] 0).2 =
      [Event.userInfoCallback 1 2 "a"] ∧
    Event.protocolViolation ∉
      (HandleMessage P8 false sAll EMsg.ClientPersonaState [] 0).2 := by
  decide

/-- Claim C8, witness: the amended theorem applied at a concrete one-record
message (success path) with assertions enabled. -/
theorem C8_witness :
    HandleMessage P8one true sAll EMsg.ClientPersonaState [] 0 =
      (sAll, [Event.userInfoCallback 5 6 "n"]) := by
  have h := (C8_persona_state_assert_only P8one true sAll [] rfl).1 ⟨5, 6, "n"⟩ rfl
  simpa using h

/-- Claim C9: on a logon response the recurring heartbeat is scheduled at the
carried interval exactly when the result code is OK, regardless of whether a
logon callback is registered (and at no other interval when the result is not
OK); the logon callback, exactly when set, is invoked once with the result and
the client's own identifier; the client state is untouched. -/
theorem C9_logon_heartbeat (P : ExternalProviders) (debug : Bool)
    (s : ClientState) (data : List Nat) (jobId : Nat) :
    ((HandleMessage P debug s EMsg.ClientLogOnResponse data jobId).2.count
        (Event.setIntervalHeartbeat (P.parseLogonResponse data).2) =
      if (P.parseLogonResponse data).1 = EResult_OK then 1 else 0) ∧
    ((P.parseLogonResponse data).1 ≠ EResult_OK → ∀ k,
      Event.setIntervalHeartbeat k ∉
        (HandleMessage P debug s EMsg.ClientLogOnResponse data jobId).2) ∧
    ((HandleMessage P debug s EMsg.ClientLogOnResponse data jobId).2.count
        (Event.logOnCallback (P.parseLogonResponse data).1 s.steamID) =
      if s.onLogOn then 1 else 0) ∧
    (HandleMessage P debug s EMsg.ClientLogOnResponse data jobId).1 = s := by
  refine ⟨?_, ?_, ?_, ?_⟩
  · by_cases hok : (P.parseLogonResponse data).1 = EResult_OK
    · cases hcb : s.onLogOn <;>
        simp [HandleMessage, handleLogOnResponse, hok, hcb, List.count_cons]
    · cases hcb : s.onLogOn <;>
        simp [HandleMessage, handleLogOnResponse, hok, hcb, List.count_cons]
  · intro hko k
    cases hcb : s.onLogOn <;>
      simp [HandleMessage, handleLogOnResponse, hko, hcb]
  · by_cases hok : (P.parseLogonResponse data).1 = EResult_OK
    · cases hcb : s.onLogOn <;>
        simp [HandleMessage, handleLogOnResponse, hok, hcb, List.count_cons]
    · cases hcb : s.onLogOn <;>
        simp [HandleMessage, handleLogOnResponse, hok, hcb, List.count_cons]
  · simp [HandleMessage, handleLogOnResponse]

/-- Claim C9, witness: the theorem applied at a concrete logon response (the
fixture parser reports result OK and interval 9) with no logon callback
registered — the heartbeat is still scheduled. -/
theorem C9_witness :
    (HandleMessage P5 false sNone EMsg.ClientLogOnResponse [] 0).2.count
        (Event.setIntervalHeartbeat 9) = 1 ∧
    (HandleMessage P5 false sNone EMsg.ClientLogOnResponse [] 0).2.count
        (Event.logOnCallback 1 sNone.steamID) = 0 := by
  have h := C9_logon_heartbeat P5 false sNone [] 0
  exact ⟨by simpa using h.1, by simpa using h.2.2.1⟩

/-- Claim C10: a machine-auth update received while no sentry callback is
registered returns immediately — no reply is sent, no callback is invoked, no
event at all is produced, and the client state is unchanged. -/
theorem C10_machine_auth_no_listener (P : ExternalProviders) (debug : Bool)
    (s : ClientState) (data : List Nat) (jobId : Nat)
    (hcb : s.onSentry = false) :
    HandleMessage P debug s EMsg.ClientUpdateMachineAuth data jobId = (s, []) := by
  simp [HandleMessage, handleUpdateMachineAuth, hcb]

/-- Claim C10, witness: the theorem applied at a concrete blob and job id with
the no-callback client. -/
theorem C10_witness :
    HandleMessage P5 true sNone EMsg.ClientUpdateMachineAuth [1, 2, 3] 4 =
      (sNone, []) := by
  exact C10_machine_auth_no_listener P5 true sNone [1, 2, 3] 4 rfl
